import Mathlib

/-!
Verification development for the stock-price forecasting pipeline
(`ML_DAG.py`): a shallow embedding of the SQL string constants, of
`execute_snowflake_query`, of each task body, and of the task dependency
graph declared with `>>`, together with theorems about the claims of the
specification.
-/

/-! ### SQL string constants, transcribed verbatim from the source -/

def USE_ROLE_SQL : String := "USE ROLE ACCOUNTADMIN;"

def USE_WAREHOUSE_SQL : String := "USE WAREHOUSE COMPUTE_WH;"

def USE_DATABASE_SQL : String := "USE DATABASE STOCK_PRICE;"

def USE_SCHEMA_SQL : String := "USE SCHEMA RAW_DATA;"

def TRAINING_DATA_SQL : String := "\nSELECT * FROM STOCK_PRICES LIMIT 10;\n"

def CREATE_VIEW_SQL : String :=
  "\nCREATE OR REPLACE VIEW STOCK_PRICES_v1 AS SELECT\n    TO_TIMESTAMP_NTZ(DATE) AS DATE_v1,\n    CLOSE,\n    SYMBOL\nFROM STOCK_PRICES;\n"

def GENERATE_PREDICTIONS_SQL : String :=
  "\nCREATE OR REPLACE TABLE My_forecasts_2024_10_13 AS\nSELECT * FROM TABLE(\n    ML.FORECAST(\n        INPUT_DATA => (SELECT * FROM STOCK_PRICES_v1),\n        SERIES_COLNAME => \x27SYMBOL\x27,\n        TIMESTAMP_COLNAME => \x27DATE_v1\x27,\n        TARGET_COLNAME => \x27CLOSE\x27,\n        FORECASTING_PERIODS => 7,\n        CONFIDENCE_LEVEL => 0.95\n    )\n);\n"

def VIEW_PREDICTIONS_SQL : String := "\nSELECT * FROM My_forecasts_2024_10_13;\n"

def UNION_PREDICTIONS_WITH_HISTORICAL_SQL : String :=
  "\nSELECT SYMBOL, DATE, CLOSE AS actual, NULL AS forecast, NULL AS lower_bound, NULL AS upper_bound\nFROM STOCK_PRICES\nUNION ALL\nSELECT SYMBOL, DATE_v1 AS DATE, NULL AS actual, forecast, lower_bound, upper_bound\nFROM My_forecasts_2024_10_13;\n"

def INSPECT_ACCURACY_SQL : String := "\nCALL lab_1_forecast!SHOW_EVALUATION_METRICS();\n"

def FEATURE_IMPORTANCE_SQL : String := "\nCALL lab_1_forecast!EXPLAIN_FEATURE_IMPORTANCE();\n"

/-! ### Effect model for `execute_snowflake_query`

The environment records the outcome of each external effect the function
performs: `var` is the Airflow `Variable` store (`Variable.get` raises when
the key is absent, modelled as `none`); `connectOk` is whether
`snowflake.connector.connect` succeeds with the stored credentials;
`execOk q` is whether `cursor.execute q` succeeds; `cursorCloseOk` and
`connCloseOk` are whether the two `close()` calls succeed. -/

structure Env where
  var : String → Option String
  connectOk : Bool
  execOk : String → Bool
  cursorCloseOk : Bool
  connCloseOk : Bool

/-- Observable events of one `execute_snowflake_query` invocation, in the
order they occur: acquiring the connection, submitting the statement to the
warehouse, the `logging.info` success line (which embeds the statement),
invoking `cursor.close()`, invoking `conn.close()`, and the
`logging.error` line (which embeds the offending statement). -/
inductive Ev where
  | connAcq : Ev
  | execAttempt : String → Ev
  | infoLog : String → Ev
  | cursorClose : Ev
  | connClose : Ev
  | errLog : String → Ev
deriving DecidableEq

/-- The six `Variable.get` keys read by `execute_snowflake_query`, in
source order. -/
def requiredKeys : List String :=
  ["snowflake_user", "snowflake_password", "snowflake_account",
   "snowflake_warehouse", "snowflake_database", "snowflake_schema"]

/-- The `try` block of `execute_snowflake_query`: read the six variables,
connect, execute, log success, close the cursor, close the connection.
Returns the event trace of the block together with `true` when the block
ran to completion and `false` when some call raised (the trace then stops
at the raising call). Note that the source has no `finally`: nothing is
closed after the point where an exception is raised. -/
def execBody (env : Env) (sql : String) : List Ev × Bool :=
  if requiredKeys.all (fun k => (env.var k).isSome) then
    if env.connectOk then
      if env.execOk sql then
        if env.cursorCloseOk then
          if env.connCloseOk then
            ([Ev.connAcq, Ev.execAttempt sql, Ev.infoLog sql,
              Ev.cursorClose, Ev.connClose], true)
          else
            ([Ev.connAcq, Ev.execAttempt sql, Ev.infoLog sql,
              Ev.cursorClose, Ev.connClose], false)
        else
          ([Ev.connAcq, Ev.execAttempt sql, Ev.infoLog sql,
            Ev.cursorClose], false)
      else ([Ev.connAcq, Ev.execAttempt sql], false)
    else ([], false)
  else ([], false)

/-- `execute_snowflake_query`: run the `try` block; on an exception the
`except` branch logs the error with the offending statement and re-raises
(`false` in the second component means the call raises to its caller). -/
def execute_snowflake_query (env : Env) (sql : String) : List Ev × Bool :=
  match execBody env sql with
  | (tr, true) => (tr, true)
  | (tr, false) => (tr ++ [Ev.errLog sql], false)

/-- Run a list of statements in order through `execute_snowflake_query`,
stopping at the first raising call (as straight-line Python does). -/
def runSqls (env : Env) : List String → List Ev × Bool
  | [] => ([], true)
  | q :: qs =>
    match execute_snowflake_query env q with
    | (tr, true) =>
      let r := runSqls env qs
      (tr ++ r.1, r.2)
    | (tr, false) => (tr, false)

/-! ### The tasks and the dependency graph -/

/-- The eight Airflow tasks of the DAG `stock_price_forecasting`. -/
inductive Step where
  | setup : Step
  | inspectTraining : Step
  | createView : Step
  | generatePredictions : Step
  | viewPredictions : Step
  | unionHistorical : Step
  | inspectAccuracy : Step
  | explainFI : Step
deriving DecidableEq

/-- The statements each task body passes to `execute_snowflake_query`:
`setup_snowflake_environment` issues four `USE` statements, every other
task exactly one statement. -/
def stepSql : Step → List String
  | Step.setup =>
    [USE_ROLE_SQL, USE_WAREHOUSE_SQL, USE_DATABASE_SQL, USE_SCHEMA_SQL]
  | Step.inspectTraining => [TRAINING_DATA_SQL]
  | Step.createView => [CREATE_VIEW_SQL]
  | Step.generatePredictions => [GENERATE_PREDICTIONS_SQL]
  | Step.viewPredictions => [VIEW_PREDICTIONS_SQL]
  | Step.unionHistorical => [UNION_PREDICTIONS_WITH_HISTORICAL_SQL]
  | Step.inspectAccuracy => [INSPECT_ACCURACY_SQL]
  | Step.explainFI => [FEATURE_IMPORTANCE_SQL]

/-- Execute one task body: its statements in order, aborting on the first
failure. -/
def runStep (env : Env) (s : Step) : List Ev × Bool :=
  runSqls env (stepSql s)

/-- Direct upstream tasks, from the `>>` chains of the source:
`setup >> inspect_training_data >> create_view >> generate_predictions`,
`generate_predictions >> view_predictions >> union`,
`generate_predictions >> inspect_accuracy >> explain_feature_importance`. -/
def deps : Step → List Step
  | Step.setup => []
  | Step.inspectTraining => [Step.setup]
  | Step.createView => [Step.inspectTraining]
  | Step.generatePredictions => [Step.createView]
  | Step.viewPredictions => [Step.generatePredictions]
  | Step.unionHistorical => [Step.viewPredictions]
  | Step.inspectAccuracy => [Step.generatePredictions]
  | Step.explainFI => [Step.inspectAccuracy]

def allSteps : List Step :=
  [Step.setup, Step.inspectTraining, Step.createView,
   Step.generatePredictions, Step.viewPredictions, Step.unionHistorical,
   Step.inspectAccuracy, Step.explainFI]

/-- `edge a b`: `b` lists `a` as a direct upstream task. -/
def edge (a b : Step) : Bool := decide (a ∈ deps b)

/-- Bounded reachability along `edge`; eight steps, so fuel 8 reaches the
whole transitive closure. -/
def reaches : Nat → Step → Step → Bool
  | 0, _, _ => false
  | f + 1, a, b => edge a b || allSteps.any (fun c => edge a c && reaches f c b)

/-- `dependsOn s k`: task `s` depends on task `k` directly or
transitively. -/
def dependsOn (s k : Step) : Bool := reaches 8 k s

/-! ### The scheduler model

An Airflow run is modelled by a processing order over the tasks (any
order the scheduler may pick); a task runs only when every direct
upstream has finished successfully, otherwise it is skipped (in Airflow:
`upstream_failed`), exactly the default `all_success` trigger rule with
zero retries. -/

structure DagState where
  status : Step → Option Bool
  trace : List (Step × Ev)
  execd : List Step

def initState : DagState := ⟨fun _ => none, [], []⟩

/-- A task is runnable when all direct upstreams succeeded. -/
def depsOk (st : Step → Option Bool) (s : Step) : Bool :=
  (deps s).all fun d => st d == some true

def runDagAux (env : Env) : List Step → DagState → DagState
  | [], σ => σ
  | s :: rest, σ =>
    if depsOk σ.status s then
      let r := runStep env s
      runDagAux env rest
        ⟨fun x => if x = s then some r.2 else σ.status x,
         σ.trace ++ r.1.map (fun e => (s, e)),
         σ.execd ++ [s]⟩
    else runDagAux env rest σ

def runDag (env : Env) (order : List Step) : DagState :=
  runDagAux env order initState

/-! ### Counting helpers -/

def isExecAttempt : Ev → Bool
  | Ev.execAttempt _ => true
  | _ => false

def isErrLog : Ev → Bool
  | Ev.errLog _ => true
  | _ => false

def errCount (tr : List Ev) : Nat := tr.countP isErrLog

def execAttemptCount (tr : List Ev) : Nat := tr.countP isExecAttempt

/-- Number of statements actually submitted to the warehouse across a
whole run. -/
def dagExecAttempts (σ : DagState) : Nat :=
  σ.trace.countP fun p => isExecAttempt p.2

/-! ### Concrete environments used as test inputs -/

/-- All effects succeed. -/
def envOk : Env :=
  ⟨fun _ => some "v", true, fun _ => true, true, true⟩

/-- Executing any statement raises. -/
def envExecFail : Env :=
  ⟨fun _ => some "v", true, fun _ => false, true, true⟩

/-- Only `CREATE_VIEW_SQL` raises. -/
def envFailView : Env :=
  ⟨fun _ => some "v", true, fun q => !(q == CREATE_VIEW_SQL), true, true⟩

/-- The variable store is empty: every `Variable.get` raises. -/
def envNoVars : Env :=
  ⟨fun _ => none, true, fun _ => true, true, true⟩

/-- `cursor.close()` raises after a successful execution. -/
def envCursorFail : Env :=
  ⟨fun _ => some "v", true, fun _ => true, false, true⟩

/-- The canonical processing order of the eight tasks. -/
def orderA : List Step := allSteps

/-- A processing order that runs the accuracy branch before the
view-predictions branch. -/
def orderB : List Step :=
  [Step.setup, Step.inspectTraining, Step.createView,
   Step.generatePredictions, Step.inspectAccuracy, Step.explainFI,
   Step.viewPredictions, Step.unionHistorical]

/-! ### String and query helpers -/

/-- `s` literally begins with `p` (character-for-character from the first
character). -/
def strBeginsWith (s p : String) : Bool := s.data.take p.data.length == p.data

/-- All external effects of `execute_snowflake_query` succeed in `env`. -/
def allOk (env : Env) : Prop :=
  (requiredKeys.all fun k => (env.var k).isSome) = true ∧
  env.connectOk = true ∧ (∀ q, env.execOk q = true) ∧
  env.cursorCloseOk = true ∧ env.connCloseOk = true

/-! ### Model of the reconciliation (`UNION ALL`) query

`UNION_PREDICTIONS_WITH_HISTORICAL_SQL` reads `SYMBOL, DATE, CLOSE` from
`STOCK_PRICES` and `SYMBOL, DATE_v1, forecast, lower_bound, upper_bound`
from `My_forecasts_2024_10_13`; SQL columns are nullable, so every source
field is an `Option`. -/

structure HistRow (α : Type) where
  SYMBOL : Option α
  DATE : Option α
  CLOSE : Option α
deriving DecidableEq

structure FcRow (α : Type) where
  SYMBOL : Option α
  DATE_v1 : Option α
  forecast : Option α
  lower_bound : Option α
  upper_bound : Option α
deriving DecidableEq

structure OutRow (α : Type) where
  SYMBOL : Option α
  DATE : Option α
  actual : Option α
  forecast : Option α
  lower_bound : Option α
  upper_bound : Option α
deriving DecidableEq

/-- The `UNION ALL` of the two `SELECT` branches: historical rows carry
`CLOSE` as `actual` and literal `NULL` for `forecast`, `lower_bound`,
`upper_bound`; forecast rows carry literal `NULL` for `actual`. -/
def unionQuery {α : Type} (hist : List (HistRow α)) (fc : List (FcRow α)) :
    List (OutRow α) :=
  (hist.map fun r => ⟨r.SYMBOL, r.DATE, r.CLOSE, none, none, none⟩) ++
  (fc.map fun r => ⟨r.SYMBOL, r.DATE_v1, none, r.forecast, r.lower_bound,
    r.upper_bound⟩)

/-- Exactly one of `actual`, `forecast` is non-null. -/
def exactlyOneOf {α : Type} (r : OutRow α) : Bool :=
  r.actual.isSome ^^ r.forecast.isSome

/-- A one-row mock result set for `STOCK_PRICES` whose `CLOSE` is NULL. -/
def histSample : List (HistRow Nat) := [⟨some 1, some 2, none⟩]

/-- Invariant of a run whose every statement fails at connection/config
time: no statement ever reaches the warehouse, only the root task
(`setup`, the one with no upstreams) is ever attempted, and every
attempted task ends failed. -/
def C5Inv (σ : DagState) : Prop :=
  (∀ p ∈ σ.trace, isExecAttempt p.2 = false) ∧
  (∀ s ∈ σ.execd, s = Step.setup) ∧
  (∀ s, σ.status s = none ∨ σ.status s = some false)

/-- The scheduler never marks a task done unless all its direct upstreams
are marked successfully done. -/
def Inv1 (st : Step → Option Bool) : Prop :=
  ∀ s r, st s = some r → ∀ d ∈ deps s, st d = some true

/-- The standing invariant of a run under a duplicate-free processing
order: the dependency invariant on statuses, agreement between statuses
and the executed-task list, no task executed twice, executed tasks
ordered consistently with every dependency edge, and every trace event
tagged by an executed task. -/
def GoodState (σ : DagState) : Prop :=
  Inv1 σ.status ∧
  (∀ s, (σ.status s).isSome = true ↔ s ∈ σ.execd) ∧
  σ.execd.Nodup ∧
  (∀ a b, edge a b = true → b ∈ σ.execd →
    a ∈ σ.execd ∧ σ.execd.indexOf a < σ.execd.indexOf b) ∧
  (∀ p ∈ σ.trace, p.1 ∈ σ.execd)

/-! ### Shape lemmas about a single `execute_snowflake_query` call -/

theorem execBody_shapes (env : Env) (q : String) :
    execBody env q = ([], false) ∨
    execBody env q = ([Ev.connAcq, Ev.execAttempt q], false) ∨
    execBody env q =
      ([Ev.connAcq, Ev.execAttempt q, Ev.infoLog q, Ev.cursorClose], false) ∨
    execBody env q =
      ([Ev.connAcq, Ev.execAttempt q, Ev.infoLog q, Ev.cursorClose,
        Ev.connClose], false) ∨
    execBody env q =
      ([Ev.connAcq, Ev.execAttempt q, Ev.infoLog q, Ev.cursorClose,
        Ev.connClose], true) := by
  unfold execBody
  repeat' split
  all_goals simp

theorem exec_shapes (env : Env) (q : String) :
    execute_snowflake_query env q = ([Ev.errLog q], false) ∨
    execute_snowflake_query env q =
      ([Ev.connAcq, Ev.execAttempt q, Ev.errLog q], false) ∨
    execute_snowflake_query env q =
      ([Ev.connAcq, Ev.execAttempt q, Ev.infoLog q, Ev.cursorClose,
        Ev.errLog q], false) ∨
    execute_snowflake_query env q =
      ([Ev.connAcq, Ev.execAttempt q, Ev.infoLog q, Ev.cursorClose,
        Ev.connClose, Ev.errLog q], false) ∨
    execute_snowflake_query env q =
      ([Ev.connAcq, Ev.execAttempt q, Ev.infoLog q, Ev.cursorClose,
        Ev.connClose], true) := by
  rcases execBody_shapes env q with h | h | h | h | h <;>
    simp [execute_snowflake_query, h]

theorem exec_allOk (env : Env) (h : allOk env) (q : String) :
    execute_snowflake_query env q =
      ([Ev.connAcq, Ev.execAttempt q, Ev.infoLog q, Ev.cursorClose,
        Ev.connClose], true) := by
  obtain ⟨h1, h2, h3, h4, h5⟩ := h
  simp [execute_snowflake_query, execBody, h1, h2, h3 q, h4, h5]

theorem runSqls_allOk (env : Env) (h : allOk env) (l : List String) :
    execAttemptCount (runSqls env l).1 = l.length ∧ (runSqls env l).2 = true := by
  induction l with
  | nil => simp [runSqls, execAttemptCount]
  | cons q qs ih =>
    rw [runSqls, exec_allOk env h q]
    simp only [execAttemptCount, List.countP_append] at ih ⊢
    constructor
    · simp [List.countP_cons, isExecAttempt, ih.1, Nat.add_comm]
    · exact ih.2

/-! ### Claim theorems (part 1) -/

/-- Claim C1 (code evaluation): with valid credentials and a statement
whose execution raises, `execute_snowflake_query` acquires the warehouse
connection, yet `conn.close()` is never invoked before the call re-raises:
the `except` branch only logs and re-raises, and the source has no
`finally`, so the connection is not released on the failure path. -/
theorem execFailureLeaksConnection :
    Ev.connAcq ∈ (execute_snowflake_query envExecFail CREATE_VIEW_SQL).1 ∧
    Ev.connClose ∉ (execute_snowflake_query envExecFail CREATE_VIEW_SQL).1 ∧
    (execute_snowflake_query envExecFail CREATE_VIEW_SQL).2 = false := by
  decide

/-- Claim C2 (counterexample): the setup step
(`setup_snowflake_environment`) submits four statements to the warehouse
in a fully successful run, not one. -/
theorem setupStepIssuesFourStatements :
    execAttemptCount (runStep envOk Step.setup).1 = 4 ∧
    execAttemptCount (runStep envOk Step.setup).1 ≠ 1 := by
  decide

/-- Claim C2 (amended): in an invocation where all effects succeed, every
step submits exactly one statement to the warehouse, except the setup
step, which submits four (`USE ROLE`, `USE WAREHOUSE`, `USE DATABASE`,
`USE SCHEMA`). -/
theorem stepStatementCount (env : Env) (h : allOk env) (s : Step) :
    execAttemptCount (runStep env s).1 = if s = Step.setup then 4 else 1 := by
  rw [runStep, (runSqls_allOk env h (stepSql s)).1]
  cases s <;> rfl

theorem stepStatementCountWitness :
    execAttemptCount (runStep envOk Step.setup).1 =
      if Step.setup = Step.setup then 4 else 1 :=
  stepStatementCount envOk ⟨rfl, rfl, fun _ => rfl, rfl, rfl⟩ Step.setup

/-- Claim C7 (counterexample): neither `CREATE_VIEW_SQL` nor
`GENERATE_PREDICTIONS_SQL` literally begins with `CREATE OR REPLACE`: both
triple-quoted source strings begin with a newline character. -/
theorem createStatementsLeadingNewline :
    strBeginsWith CREATE_VIEW_SQL "CREATE OR REPLACE" = false ∧
    strBeginsWith GENERATE_PREDICTIONS_SQL "CREATE OR REPLACE" = false ∧
    CREATE_VIEW_SQL.data.head? = some (Char.ofNat 10) ∧
    GENERATE_PREDICTIONS_SQL.data.head? = some (Char.ofNat 10) := by
  decide

/-- Claim C7 (amended): each of the two object-creating statements begins
with `CREATE OR REPLACE` immediately after its leading newline, so both
durable objects (the view and the forecast table) are created with
`CREATE OR REPLACE` and re-running the sequence replaces rather than
duplicates them. -/
theorem createStatementsBeginCreateOrReplace :
    strBeginsWith CREATE_VIEW_SQL "\nCREATE OR REPLACE" = true ∧
    strBeginsWith GENERATE_PREDICTIONS_SQL "\nCREATE OR REPLACE" = true := by
  decide

set_option maxRecDepth 8000 in
/-- Claim C8: the forecast-generation statement literally contains the
named arguments `FORECASTING_PERIODS => 7` and `CONFIDENCE_LEVEL => 0.95`
in its rendered text. -/
theorem forecastArgsLiteral :
    ∃ a b c : String,
      GENERATE_PREDICTIONS_SQL =
        a ++ "FORECASTING_PERIODS => 7" ++ b ++ "CONFIDENCE_LEVEL => 0.95" ++ c :=
  ⟨"\nCREATE OR REPLACE TABLE My_forecasts_2024_10_13 AS\nSELECT * FROM TABLE(\n    ML.FORECAST(\n        INPUT_DATA => (SELECT * FROM STOCK_PRICES_v1),\n        SERIES_COLNAME => \x27SYMBOL\x27,\n        TIMESTAMP_COLNAME => \x27DATE_v1\x27,\n        TARGET_COLNAME => \x27CLOSE\x27,\n        ",
   ",\n        ", "\n    )\n);\n", by decide⟩

/-- Claim C9 (counterexample): on a mock `STOCK_PRICES` result set with a
NULL `CLOSE`, the reconciliation query emits a row whose `actual` and
`forecast` are both null, so not every output row has exactly one of the
two non-null. -/
theorem unionRowBothNull :
    unionQuery histSample ([] : List (FcRow Nat)) =
      [⟨some 1, some 2, none, none, none, none⟩] ∧
    ((unionQuery histSample ([] : List (FcRow Nat))).all fun r =>
      exactlyOneOf r) = false := by
  decide

/-- Claim C9 (amended): every row of the reconciliation query has at most
one of `actual`, `forecast` non-null — historical-branch rows have
`forecast`, `lower_bound`, `upper_bound` null and forecast-branch rows
have `actual` null — and it has exactly one non-null precisely when the
corresponding source column (`CLOSE` resp. `forecast`) is non-null. -/
theorem unionRowsAtMostOne {α : Type} (hist : List (HistRow α))
    (fc : List (FcRow α)) (row : OutRow α)
    (hrow : row ∈ unionQuery hist fc) :
    ((row.forecast = none ∧ row.lower_bound = none ∧ row.upper_bound = none) ∨
      row.actual = none) ∧
    exactlyOneOf row = (row.actual.isSome || row.forecast.isSome) := by
  rw [unionQuery] at hrow
  rcases List.mem_append.1 hrow with h | h
  · obtain ⟨r, _, rfl⟩ := List.mem_map.1 h
    exact ⟨Or.inl ⟨rfl, rfl, rfl⟩, by simp [exactlyOneOf]⟩
  · obtain ⟨r, _, rfl⟩ := List.mem_map.1 h
    exact ⟨Or.inr rfl, by simp [exactlyOneOf]⟩

theorem unionRowsAtMostOneWitness :
    ((((⟨some 1, some 2, none, none, none, none⟩ : OutRow Nat).forecast = none ∧
       (⟨some 1, some 2, none, none, none, none⟩ : OutRow Nat).lower_bound = none ∧
       (⟨some 1, some 2, none, none, none, none⟩ : OutRow Nat).upper_bound = none) ∨
      (⟨some 1, some 2, none, none, none, none⟩ : OutRow Nat).actual = none) ∧
     exactlyOneOf (⟨some 1, some 2, none, none, none, none⟩ : OutRow Nat) =
       ((⟨some 1, some 2, none, none, none, none⟩ : OutRow Nat).actual.isSome ||
        (⟨some 1, some 2, none, none, none, none⟩ : OutRow Nat).forecast.isSome)) :=
  unionRowsAtMostOne histSample [] _ (by decide)

/-! ### Error-logging lemmas (claim C6) -/

theorem exec_errCount (env : Env) (q : String) :
    errCount (execute_snowflake_query env q).1 =
      if (execute_snowflake_query env q).2 = true then 0 else 1 := by
  rcases exec_shapes env q with h | h | h | h | h <;>
    simp [h, errCount, isErrLog]

theorem exec_fail_getLast (env : Env) (q : String)
    (h : (execute_snowflake_query env q).2 = false) :
    (execute_snowflake_query env q).1.getLast? = some (Ev.errLog q) := by
  rcases exec_shapes env q with h' | h' | h' | h' | h' <;> rw [h'] at h ⊢ <;>
    simp_all

theorem runSqls_errCount (env : Env) (l : List String) :
    errCount (runSqls env l).1 =
      (if (runSqls env l).2 = true then 0 else 1) ∧
    ((runSqls env l).2 = false →
      ∃ q ∈ l, (runSqls env l).1.getLast? = some (Ev.errLog q)) := by
  induction l with
  | nil => simp [runSqls, errCount]
  | cons q qs ih =>
    rw [runSqls]
    cases hE : execute_snowflake_query env q with
    | mk tr ok =>
      have hCount := exec_errCount env q
      rw [hE] at hCount
      cases ok with
      | true =>
        show (errCount (tr ++ (runSqls env qs).1) =
            if (runSqls env qs).2 = true then 0 else 1) ∧
          ((runSqls env qs).2 = false →
            ∃ q' ∈ q :: qs,
              (tr ++ (runSqls env qs).1).getLast? = some (Ev.errLog q'))
        refine ⟨?_, fun hf => ?_⟩
        · rw [errCount, List.countP_append]
          have h1 := ih.1
          rw [errCount] at h1
          have htr : List.countP isErrLog tr = 0 := by
            simpa [errCount] using hCount
          rw [htr, h1, Nat.zero_add]
        · obtain ⟨q', hq', hlast⟩ := ih.2 hf
          refine ⟨q', List.mem_cons_of_mem _ hq', ?_⟩
          rw [List.getLast?_append, hlast]
          rfl
      | false =>
        show (errCount tr = if (false : Bool) = true then 0 else 1) ∧
          ((false : Bool) = false →
            ∃ q' ∈ q :: qs, tr.getLast? = some (Ev.errLog q'))
        refine ⟨by simpa using hCount, fun _ => ?_⟩
        have hl := exec_fail_getLast env q (by rw [hE])
        rw [hE] at hl
        exact ⟨q, List.mem_cons_self q qs, hl⟩

/-- Claim C6: whenever a task body fails, exactly one error line is
logged (none when it succeeds), the logged line is the `errLog` of one of
the task's own statements and is the last event of the body — the point
of occurrence — and the failure is re-raised (`runStep` returns `false`),
with no recovery in any task body. -/
theorem failureLoggedOnceAndReraised (env : Env) (s : Step) :
    errCount (runStep env s).1 =
      (if (runStep env s).2 = true then 0 else 1) ∧
    ((runStep env s).2 = false →
      ((stepSql s).any fun q =>
        (runStep env s).1.getLast? == some (Ev.errLog q)) = true) := by
  refine ⟨(runSqls_errCount env (stepSql s)).1, fun hf => ?_⟩
  obtain ⟨q, hq, hl⟩ := (runSqls_errCount env (stepSql s)).2 hf
  rw [List.any_eq_true]
  exact ⟨q, hq, by simp [runStep, hl]⟩

theorem failureLoggedOnceAndReraisedWitness :
    (errCount (runStep envExecFail Step.setup).1 =
      (if (runStep envExecFail Step.setup).2 = true then 0 else 1)) ∧
    ((stepSql Step.setup).any fun q =>
      (runStep envExecFail Step.setup).1.getLast? == some (Ev.errLog q)) = true :=
  ⟨(failureLoggedOnceAndReraised envExecFail Step.setup).1,
   (failureLoggedOnceAndReraised envExecFail Step.setup).2 (by decide)⟩

/-- Claim C10: the success log line appears in the trace only after the
statement's execution returns — when present, the trace starts with the
connection acquisition, the execution, then the success line, with the
two `close()` calls strictly later — the function never logs success for
a statement whose execution raised, and it can log success and still
raise, namely when closing the cursor fails. -/
theorem successLogPosition :
    (∀ (env : Env) (sql : String),
      Ev.infoLog sql ∈ (execute_snowflake_query env sql).1 →
      (execute_snowflake_query env sql).1.take 3 =
        [Ev.connAcq, Ev.execAttempt sql, Ev.infoLog sql]) ∧
    (∀ (env : Env) (sql : String), env.execOk sql = false →
      Ev.infoLog sql ∉ (execute_snowflake_query env sql).1) ∧
    (∃ env : Env, ∃ sql : String,
      Ev.infoLog sql ∈ (execute_snowflake_query env sql).1 ∧
      (execute_snowflake_query env sql).2 = false) := by
  refine ⟨?_, ?_, ⟨envCursorFail, "Q", by decide⟩⟩
  · intro env sql hmem
    rcases exec_shapes env sql with h | h | h | h | h <;> rw [h] at hmem ⊢ <;>
      first
        | rfl
        | (exfalso; simp at hmem)
  · intro env sql hexec
    by_cases h1 : (requiredKeys.all fun k => (env.var k).isSome) = true
    · by_cases h2 : env.connectOk = true
      · simp [execute_snowflake_query, execBody, h1, h2, hexec]
      · rw [Bool.not_eq_true] at h2
        simp [execute_snowflake_query, execBody, h1, h2]
    · rw [Bool.not_eq_true] at h1
      simp [execute_snowflake_query, execBody, h1]

theorem successLogPositionWitness :
    (execute_snowflake_query envOk "Q").1.take 3 =
      [Ev.connAcq, Ev.execAttempt "Q", Ev.infoLog "Q"] :=
  successLogPosition.1 envOk "Q" (by decide)

/-! ### Claim C5: configuration failures abort the run before any SQL -/

theorem exec_bad (env : Env)
    (h : (∃ k ∈ requiredKeys, env.var k = none) ∨ env.connectOk = false) :
    ∀ q, execute_snowflake_query env q = ([Ev.errLog q], false) := by
  intro q
  rcases h with ⟨k, hk, hnone⟩ | hconn
  · have hall : (requiredKeys.all fun k => (env.var k).isSome) = false := by
      rw [List.all_eq_false]
      exact ⟨k, hk, by simp [hnone]⟩
    simp [execute_snowflake_query, execBody, hall]
  · by_cases h1 : (requiredKeys.all fun k => (env.var k).isSome) = true
    · simp [execute_snowflake_query, execBody, h1, hconn]
    · rw [Bool.not_eq_true] at h1
      simp [execute_snowflake_query, execBody, h1]

theorem step_setup_or_dep (x : Step) : x = Step.setup ∨ ∃ d, d ∈ deps x := by
  cases x with
  | setup => exact Or.inl rfl
  | inspectTraining => exact Or.inr ⟨Step.setup, by simp [deps]⟩
  | createView => exact Or.inr ⟨Step.inspectTraining, by simp [deps]⟩
  | generatePredictions => exact Or.inr ⟨Step.createView, by simp [deps]⟩
  | viewPredictions => exact Or.inr ⟨Step.generatePredictions, by simp [deps]⟩
  | unionHistorical => exact Or.inr ⟨Step.viewPredictions, by simp [deps]⟩
  | inspectAccuracy => exact Or.inr ⟨Step.generatePredictions, by simp [deps]⟩
  | explainFI => exact Or.inr ⟨Step.inspectAccuracy, by simp [deps]⟩

theorem depsOk_no_success (st : Step → Option Bool)
    (hst : ∀ s, st s = none ∨ st s = some false) (x : Step)
    (hd : depsOk st x = true) : x = Step.setup := by
  rcases step_setup_or_dep x with hx | ⟨d, hdm⟩
  · exact hx
  · exfalso
    rw [depsOk, List.all_eq_true] at hd
    have := hd d hdm
    rcases hst d with h' | h' <;> simp [h'] at this

theorem c5_aux (env : Env)
    (hbad : ∀ q, execute_snowflake_query env q = ([Ev.errLog q], false)) :
    ∀ (order : List Step) (σ : DagState), C5Inv σ → C5Inv (runDagAux env order σ) := by
  intro order
  induction order with
  | nil => intro σ h; simpa [runDagAux] using h
  | cons x rest ih =>
    intro σ h
    rw [runDagAux]
    split
    case isTrue hd =>
      have hx : x = Step.setup := depsOk_no_success σ.status h.2.2 x hd
      subst hx
      have hrun : runStep env Step.setup = ([Ev.errLog USE_ROLE_SQL], false) := by
        rw [runStep, stepSql, runSqls, hbad USE_ROLE_SQL]
      apply ih
      rw [hrun]
      refine ⟨?_, ?_, ?_⟩
      · intro p hp
        rcases List.mem_append.1 hp with hp' | hp'
        · exact h.1 p hp'
        · simp at hp'
          rw [hp']
          rfl
      · intro s hs
        rcases List.mem_append.1 hs with hs' | hs'
        · exact h.2.1 s hs'
        · simpa using hs'
      · intro s
        by_cases hsx : s = Step.setup
        · subst hsx; simp
        · simp only [hsx, if_neg]
          exact h.2.2 s
    case isFalse hd =>
      exact ih σ h

/-- Claim C5: if any of the six required config keys is missing from the
variable store, or the credentials are invalid (connecting fails), then
in any processing order no SQL statement is ever submitted to the
warehouse, only the root setup task is ever attempted, and the run fails
(the setup task never succeeds). -/
theorem missingConfigFailsBeforeSql (env : Env) (order : List Step)
    (h : (∃ k ∈ requiredKeys, env.var k = none) ∨ env.connectOk = false) :
    dagExecAttempts (runDag env order) = 0 ∧
    ((runDag env order).execd.all fun s => s == Step.setup) = true ∧
    (runDag env order).status Step.setup ≠ some true := by
  have hinv := c5_aux env (exec_bad env h) order initState
    ⟨by simp [initState], by simp [initState], fun s => Or.inl rfl⟩
  rw [runDag] at *
  refine ⟨?_, ?_, ?_⟩
  · rw [dagExecAttempts, List.countP_eq_zero]
    intro p hp
    simpa using hinv.1 p hp
  · rw [List.all_eq_true]
    intro s hs
    simpa using hinv.2.1 s hs
  · rcases hinv.2.2 Step.setup with h' | h' <;> simp [h']

theorem missingConfigFailsBeforeSqlWitness :
    dagExecAttempts (runDag envNoVars orderA) = 0 ∧
    ((runDag envNoVars orderA).execd.all fun s => s == Step.setup) = true ∧
    (runDag envNoVars orderA).status Step.setup ≠ some true :=
  missingConfigFailsBeforeSql envNoVars orderA
    (Or.inl ⟨"snowflake_user", by decide, rfl⟩)

/-! ### Scheduler invariants (claims C3 and C4) -/

theorem step_not_self_dep : ∀ s : Step, s ∉ deps s := by
  intro s
  cases s <;> simp [deps]

theorem edge_iff (a b : Step) : edge a b = true ↔ a ∈ deps b := by
  simp [edge]

theorem mem_allSteps (s : Step) : s ∈ allSteps := by
  cases s <;> simp [allSteps]

theorem initGood : GoodState initState := by
  refine ⟨?_, ?_, ?_, ?_, ?_⟩
  · intro s r h
    exact absurd h (by simp [initState])
  · intro s
    simp [initState]
  · simp [initState]
  · intro a b _ hb
    exact absurd hb (by simp [initState])
  · intro p hp
    exact absurd hp (by simp [initState])

theorem runDagAux_good (env : Env) :
    ∀ (order : List Step) (σ : DagState), order.Nodup →
      (∀ t ∈ order, σ.status t = none) → GoodState σ →
      GoodState (runDagAux env order σ) := by
  intro order
  induction order with
  | nil =>
    intro σ _ _ hg
    simpa [runDagAux] using hg
  | cons x rest ih =>
    intro σ hnd hpend hg
    obtain ⟨hInv, hSE, hNd, hEO, hTag⟩ := hg
    have hndr : rest.Nodup := (List.nodup_cons.1 hnd).2
    have hxnr : x ∉ rest := (List.nodup_cons.1 hnd).1
    rw [runDagAux]
    split
    case isTrue hd =>
      have hxnone : σ.status x = none := hpend x (List.mem_cons_self x rest)
      have hxne : x ∉ σ.execd := by
        intro hmem
        have := (hSE x).2 hmem
        rw [hxnone] at this
        simp at this
      refine ih _ hndr ?_ ?_
      · intro t ht
        have htx : t ≠ x := fun h => hxnr (h ▸ ht)
        show (if t = x then some (runStep env x).2 else σ.status t) = none
        rw [if_neg htx]
        exact hpend t (List.mem_cons_of_mem x ht)
      · refine ⟨?_, ?_, ?_, ?_, ?_⟩
        · intro s r hs d hdm
          by_cases hsx : s = x
          · subst hsx
            have hdep : σ.status d = some true := by
              rw [depsOk, List.all_eq_true] at hd
              have := hd d hdm
              simpa using this
            have hdx : d ≠ s := by
              intro h
              exact step_not_self_dep s (h ▸ hdm)
            show (if d = s then some (runStep env s).2 else σ.status d) = some true
            rw [if_neg hdx]
            exact hdep
          · have hs' : (if s = x then some (runStep env x).2 else σ.status s)
                = some r := hs
            rw [if_neg hsx] at hs'
            have hdx : d ≠ x := by
              intro h
              subst h
              have := hInv s r hs' d hdm
              rw [hxnone] at this
              simp at this
            show (if d = x then some (runStep env x).2 else σ.status d) = some true
            rw [if_neg hdx]
            exact hInv s r hs' d hdm
        · intro s
          by_cases hsx : s = x
          · subst hsx
            show (if s = s then some (runStep env s).2 else σ.status s).isSome
              = true ↔ s ∈ σ.execd ++ [s]
            simp
          · show (if s = x then some (runStep env x).2 else σ.status s).isSome
              = true ↔ s ∈ σ.execd ++ [x]
            rw [if_neg hsx]
            simpa [List.mem_append, hsx] using hSE s
        · simp [List.nodup_append, hNd, hxne]
        · intro a b heab hbmem
          rcases List.mem_append.1 hbmem with hb | hb
          · obtain ⟨ham, hlt⟩ := hEO a b heab hb
            refine ⟨List.mem_append_left _ ham, ?_⟩
            rw [List.indexOf_append_of_mem ham, List.indexOf_append_of_mem hb]
            exact hlt
          · have hbx : b = x := by simpa using hb
            subst hbx
            have hsta : σ.status a = some true := by
              rw [depsOk, List.all_eq_true] at hd
              have := hd a ((edge_iff a b).1 heab)
              simpa using this
            have ham : a ∈ σ.execd := (hSE a).1 (by rw [hsta]; rfl)
            refine ⟨List.mem_append_left _ ham, ?_⟩
            rw [List.indexOf_append_of_mem ham,
              List.indexOf_append_of_not_mem hxne, List.indexOf_cons_self]
            have := List.indexOf_lt_length.2 ham
            omega
        · intro p hp
          rcases List.mem_append.1 hp with hp' | hp'
          · exact List.mem_append_left _ (hTag p hp')
          · obtain ⟨e, _, rfl⟩ := List.mem_map.1 hp'
            exact List.mem_append_right _ (by simp)
    case isFalse hd =>
      exact ih σ hndr (fun t ht => hpend t (List.mem_cons_of_mem x ht))
        ⟨hInv, hSE, hNd, hEO, hTag⟩

theorem reaches_some_true (st : Step → Option Bool) (hInv : Inv1 st) :
    ∀ (fuel : Nat) (a b : Step), reaches fuel a b = true →
      ∀ r, st b = some r → st a = some true := by
  intro fuel
  induction fuel with
  | zero =>
    intro a b h
    rw [reaches] at h
    exact absurd h (by simp)
  | succ f ihf =>
    intro a b h r hb
    rw [reaches] at h
    have h' : edge a b = true ∨
        (allSteps.any fun c => edge a c && reaches f c b) = true := by
      simpa [Bool.or_eq_true] using h
    rcases h' with h' | h'
    · exact hInv b r hb a ((edge_iff a b).1 h')
    · rw [List.any_eq_true] at h'
      obtain ⟨c, _, hc⟩ := h'
      have hc' : edge a c = true ∧ reaches f c b = true := by
        simpa [Bool.and_eq_true] using hc
      have hcTrue : st c = some true := ihf c b hc'.2 r hb
      exact hInv c true hcTrue a ((edge_iff a c).1 hc'.1)

/-- Claim C3: under any duplicate-free processing order, if task `k`
ends failed then every task depending on `k` directly or transitively is
never marked, never executed, and contributes no event (hence no
statement) to the run's trace; moreover no task is executed twice (zero
retries). -/
theorem failedStepBlocksDependents (env : Env) (order : List Step)
    (hnd : order.Nodup) (k s : Step)
    (hk : (runDag env order).status k = some false)
    (hdep : dependsOn s k = true) :
    (runDag env order).execd.Nodup ∧
    (runDag env order).status s = none ∧
    s ∉ (runDag env order).execd ∧
    ((runDag env order).trace.countP fun p => p.1 == s) = 0 := by
  have hg : GoodState (runDag env order) :=
    runDagAux_good env order initState hnd (fun t _ => rfl) initGood
  obtain ⟨hInv, hSE, hNd, _, hTag⟩ := hg
  rw [dependsOn] at hdep
  have hsnone : (runDag env order).status s = none := by
    cases hss : (runDag env order).status s with
    | none => rfl
    | some r =>
      have := reaches_some_true _ hInv 8 k s hdep r hss
      rw [hk] at this
      simp at this
  have hsne : s ∉ (runDag env order).execd := by
    intro hmem
    have := (hSE s).2 hmem
    rw [hsnone] at this
    simp at this
  refine ⟨hNd, hsnone, hsne, ?_⟩
  rw [List.countP_eq_zero]
  intro p hp hps
  have hp1 : p.1 = s := by simpa using hps
  exact hsne (hp1 ▸ hTag p hp)

theorem failedStepBlocksDependentsWitness :
    (runDag envFailView orderA).execd.Nodup ∧
    (runDag envFailView orderA).status Step.generatePredictions = none ∧
    Step.generatePredictions ∉ (runDag envFailView orderA).execd ∧
    ((runDag envFailView orderA).trace.countP fun p =>
      p.1 == Step.generatePredictions) = 0 :=
  failedStepBlocksDependents envFailView orderA (by decide) Step.createView
    Step.generatePredictions (by decide) (by decide)

theorem get_of_indexOf (l : List Step) (a : Step) (i : Nat) (hi : i < l.length)
    (hIdx : l.indexOf a = i) : l.get ⟨i, hi⟩ = a := by
  subst hIdx
  exact List.indexOf_get hi

/-- Claim C4: in every successful run (all eight tasks end marked
successful) under any duplicate-free processing order, the executed
order starts with exactly setup, inspect-training-data, create-view,
generate-predictions, in that order; after generate-predictions,
view-predictions executes before union-with-historical and
inspect-accuracy before explain-feature-importance. The relative order
of the two branches is unconstrained: the two concrete successful runs
exhibited place the branches in both relative orders. -/
theorem successfulRunOrder :
    (∀ (env : Env) (order : List Step), order.Nodup →
      (∀ s ∈ allSteps, (runDag env order).status s = some true) →
      ((runDag env order).execd.take 4 =
        [Step.setup, Step.inspectTraining, Step.createView,
         Step.generatePredictions] ∧
       (runDag env order).execd.indexOf Step.viewPredictions <
         (runDag env order).execd.indexOf Step.unionHistorical ∧
       (runDag env order).execd.indexOf Step.inspectAccuracy <
         (runDag env order).execd.indexOf Step.explainFI)) ∧
    ((∀ s ∈ allSteps, (runDag envOk orderA).status s = some true) ∧
     (runDag envOk orderA).execd.indexOf Step.viewPredictions <
       (runDag envOk orderA).execd.indexOf Step.inspectAccuracy) ∧
    ((∀ s ∈ allSteps, (runDag envOk orderB).status s = some true) ∧
     (runDag envOk orderB).execd.indexOf Step.inspectAccuracy <
       (runDag envOk orderB).execd.indexOf Step.viewPredictions) := by
  refine ⟨?_, ⟨by decide, by decide⟩, ⟨by decide, by decide⟩⟩
  intro env order hnd hsucc
  have hGood : GoodState (runDag env order) :=
    runDagAux_good env order initState hnd (fun t _ => rfl) initGood
  obtain ⟨_, hSE, hNd, hEO, _⟩ := hGood
  set l := (runDag env order).execd with hldef
  have hmem : ∀ s : Step, s ∈ l := fun s =>
    (hSE s).1 (by rw [hsucc s (mem_allSteps s)]; rfl)
  have c1 : l.indexOf Step.setup < l.indexOf Step.inspectTraining :=
    (hEO Step.setup Step.inspectTraining (by decide) (hmem _)).2
  have c2 : l.indexOf Step.inspectTraining < l.indexOf Step.createView :=
    (hEO _ _ (by decide) (hmem _)).2
  have c3 : l.indexOf Step.createView < l.indexOf Step.generatePredictions :=
    (hEO _ _ (by decide) (hmem _)).2
  have c4 : l.indexOf Step.generatePredictions < l.indexOf Step.viewPredictions :=
    (hEO _ _ (by decide) (hmem _)).2
  have c5 : l.indexOf Step.viewPredictions < l.indexOf Step.unionHistorical :=
    (hEO _ _ (by decide) (hmem _)).2
  have c6 : l.indexOf Step.generatePredictions < l.indexOf Step.inspectAccuracy :=
    (hEO _ _ (by decide) (hmem _)).2
  have c7 : l.indexOf Step.inspectAccuracy < l.indexOf Step.explainFI :=
    (hEO _ _ (by decide) (hmem _)).2
  have hLu : l.indexOf Step.unionHistorical < l.length :=
    List.indexOf_lt_length.2 (hmem _)
  have h0 : 0 < l.length := by omega
  have h1 : 1 < l.length := by omega
  have h2 : 2 < l.length := by omega
  have h3 : 3 < l.length := by omega
  have hp0 : l.indexOf Step.setup = 0 := by
    have heIdx : l.indexOf (l.get ⟨0, h0⟩) = 0 := by
      have := List.indexOf_getElem hNd 0 h0
      simpa [List.get_eq_getElem] using this
    cases hE : l.get ⟨0, h0⟩ <;> rw [hE] at heIdx <;> omega
  have hp1 : l.indexOf Step.inspectTraining = 1 := by
    have heIdx : l.indexOf (l.get ⟨1, h1⟩) = 1 := by
      have := List.indexOf_getElem hNd 1 h1
      simpa [List.get_eq_getElem] using this
    cases hE : l.get ⟨1, h1⟩ <;> rw [hE] at heIdx <;> omega
  have hp2 : l.indexOf Step.createView = 2 := by
    have heIdx : l.indexOf (l.get ⟨2, h2⟩) = 2 := by
      have := List.indexOf_getElem hNd 2 h2
      simpa [List.get_eq_getElem] using this
    cases hE : l.get ⟨2, h2⟩ <;> rw [hE] at heIdx <;> omega
  have hp3 : l.indexOf Step.generatePredictions = 3 := by
    have heIdx : l.indexOf (l.get ⟨3, h3⟩) = 3 := by
      have := List.indexOf_getElem hNd 3 h3
      simpa [List.get_eq_getElem] using this
    cases hE : l.get ⟨3, h3⟩ <;> rw [hE] at heIdx <;> omega
  refine ⟨?_, c5, c7⟩
  have hg0 : l.get ⟨0, h0⟩ = Step.setup := get_of_indexOf l _ 0 h0 hp0
  have hg1 : l.get ⟨1, h1⟩ = Step.inspectTraining := get_of_indexOf l _ 1 h1 hp1
  have hg2 : l.get ⟨2, h2⟩ = Step.createView := get_of_indexOf l _ 2 h2 hp2
  have hg3 : l.get ⟨3, h3⟩ = Step.generatePredictions :=
    get_of_indexOf l _ 3 h3 hp3
  apply List.ext_get
  · rw [List.length_take]
    simp only [List.length_cons, List.length_nil]
    omega
  · intro n hn1 hn2
    simp only [List.length_cons, List.length_nil] at hn2
    interval_cases n
    · simpa [List.get_eq_getElem, List.getElem_take] using hg0
    · simpa [List.get_eq_getElem, List.getElem_take] using hg1
    · simpa [List.get_eq_getElem, List.getElem_take] using hg2
    · simpa [List.get_eq_getElem, List.getElem_take] using hg3

theorem successfulRunOrderWitness :
    (runDag envOk orderA).execd.take 4 =
      [Step.setup, Step.inspectTraining, Step.createView,
       Step.generatePredictions] ∧
    (runDag envOk orderA).execd.indexOf Step.viewPredictions <
      (runDag envOk orderA).execd.indexOf Step.unionHistorical ∧
    (runDag envOk orderA).execd.indexOf Step.inspectAccuracy <
      (runDag envOk orderA).execd.indexOf Step.explainFI :=
  successfulRunOrder.1 envOk orderA (by decide) (by decide)
